import Mathlib

/-!
Shallow embedding of the NonaneDB storage engine (an embedded append-only
document store written in Rust) together with proofs about its insertion
path, queued writer, descriptor codec and document counting.

Files are modelled as lists of bytes (`List Nat`, each element intended to
be `< 256`); machine integers (`u64`/`usize`) are modelled as `Nat` (no
arithmetic in the modelled paths ever approaches `2^64`, and where the
width matters the little-endian codec carries it explicitly).
-/

set_option autoImplicit false

namespace NonaneDB

/-- Little-endian encoding of `n` into `k` bytes (the `byteorder`
`write_u64::<LittleEndian>` / `write_u16::<LittleEndian>` family). -/
def leBytes : Nat → Nat → List Nat
  | 0, _ => []
  | k + 1, n => n % 256 :: leBytes k (n / 256)

/-- Little-endian value of a byte list (the `byteorder` read family). -/
def leVal : List Nat → Nat
  | [] => 0
  | b :: bs => b + 256 * leVal bs

@[simp] theorem leBytes_length (k n : Nat) : (leBytes k n).length = k := by
  induction k generalizing n with
  | zero => rfl
  | succ k ih => simp [leBytes, ih]

theorem leVal_leBytes (k n : Nat) (h : n < 256 ^ k) : leVal (leBytes k n) = n := by
  induction k generalizing n with
  | zero =>
    simp [leBytes, leVal]
    omega
  | succ k ih =>
    have hdiv : n / 256 < 256 ^ k := by
      rw [Nat.div_lt_iff_lt_mul (by norm_num)]
      calc n < 256 ^ (k + 1) := h
        _ = 256 ^ k * 256 := by ring
    simp [leBytes, leVal, ih (n / 256) hdiv]
    omega

/-- Reading a `u64` little-endian at byte offset `off` of a file
(`seek(Start(off)); read_u64::<LittleEndian>()`): fails (`None`) when
fewer than 8 bytes remain past `off`. -/
def readU64 (file : List Nat) (off : Nat) : Option Nat :=
  if off + 8 ≤ file.length then some (leVal ((file.drop off).take 8)) else none

/-- Writing `bytes` at position `pos` of a file: bytes before `pos` are
kept (zero-extended if the file is shorter than `pos`), the region is
overwritten, and any tail of the old file past the write is kept. -/
def writeAt (file : List Nat) (pos : Nat) (bytes : List Nat) : List Nat :=
  (file.take pos ++ List.replicate (pos - file.length) 0) ++ bytes
    ++ file.drop (pos + bytes.length)

/-- The `fs2` `File::allocate(n)`: grows the file with zero bytes to
size `n` (never shrinks). -/
def allocate (file : List Nat) (n : Nat) : List Nat :=
  file ++ List.replicate (n - file.length) 0

theorem writeAt_prefix_length (file : List Nat) (pos : Nat) :
    (file.take pos ++ List.replicate (pos - file.length) 0).length = pos := by
  simp [List.length_take]
  omega

theorem writeAt_length (file : List Nat) (pos : Nat) (bytes : List Nat) :
    (writeAt file pos bytes).length = max file.length (pos + bytes.length) := by
  simp [writeAt, List.length_take]
  omega

theorem writeAt_read (file : List Nat) (pos : Nat) (bytes : List Nat) :
    ((writeAt file pos bytes).drop pos).take bytes.length = bytes := by
  have hp := writeAt_prefix_length file pos
  rw [writeAt, List.append_assoc, List.drop_append_of_le_length (by omega)]
  rw [List.drop_of_length_le (by omega)]
  simp

theorem writeAt_take_of_le (file : List Nat) (pos : Nat) (bytes : List Nat)
    (k : Nat) (hk : k ≤ pos) :
    (writeAt file pos bytes).take k =
      (file.take pos ++ List.replicate (pos - file.length) 0).take k := by
  have hp := writeAt_prefix_length file pos
  rw [writeAt, List.append_assoc, List.take_append_of_le_length (by omega)]

/-- `utils::numbers::round_to_multiple`: rounds `n` up to the nearest
multiple of `m`. -/
def round_to_multiple (n m : Nat) : Nat :=
  ((n + m - 1) / m) * m

theorem le_round_to_multiple (n : Nat) : n ≤ round_to_multiple n 8 := by
  unfold round_to_multiple
  omega

/-- `Vec::resize(len, 0)`: truncates or zero-extends to length `n`. -/
def listResize (l : List Nat) (n : Nat) : List Nat :=
  if n ≤ l.length then l.take n else l ++ List.replicate (n - l.length) 0

theorem listResize_length (l : List Nat) (n : Nat) : (listResize l n).length = n := by
  unfold listResize
  split <;> simp <;> omega

-- ### Data model (src/db/bucket/document/field)

/-- `FieldType` tag enumeration (`fieldtype.rs`). -/
inductive FieldType where
  | Uuid | Bytes | Text
  | Int8 | Int16 | Int32 | Int64
  | UInt8 | UInt16 | UInt32 | UInt64
  | Float32 | Float64
  deriving DecidableEq

/-- Discriminant of a `FieldType` as in the `#[repr(C)]` enum. -/
def FieldType.tag : FieldType → Nat
  | .Uuid => 0x0
  | .Bytes => 0x1
  | .Text => 0x2
  | .Int8 => 0x3
  | .Int16 => 0x4
  | .Int32 => 0x5
  | .Int64 => 0x6
  | .UInt8 => 0x7
  | .UInt16 => 0x8
  | .UInt32 => 0x9
  | .UInt64 => 0xA
  | .Float32 => 0xB
  | .Float64 => 0xC

/-- A document field (`field.rs`): C-string name (stored as its bytes,
without the trailing NUL), type tag and opaque payload bytes. -/
structure Field where
  name : List Nat
  field_type : FieldType
  data : List Nat
  deriving DecidableEq

/-- `FieldDescriptor` (`descriptor.rs`): a schema entry. -/
structure FieldDescriptor where
  name : List Nat
  field_type : FieldType
  deriving DecidableEq

/-- `FieldDescriptor::is_match`: a field matches a descriptor iff both
the name and the type are equal. -/
def FieldDescriptor.is_match (self : FieldDescriptor) (field : Field) : Bool :=
  if field.name = self.name ∧ field.field_type = self.field_type then true else false

/-- `BucketDescription` (`bucket/descriptor.rs`): the bucket schema. -/
structure BucketDescription where
  field_description : List FieldDescriptor
  deriving DecidableEq

/-- A `Document` (`document.rs`): ordered list of fields. -/
structure Document where
  fields : List Field
  deriving DecidableEq

/-- Models the bincode v1 encoding of a serde byte buffer: `u64` LE
length prefix followed by the raw bytes. -/
def bincodeBytes (b : List Nat) : List Nat :=
  leBytes 8 b.length ++ b

/-- Models the bincode v1 encoding of a `Field` (name bytes, `u32` LE
variant index of the type tag, payload bytes). -/
def Field.serialize (f : Field) : List Nat :=
  bincodeBytes f.name ++ leBytes 4 f.field_type.tag ++ bincodeBytes f.data

/-- `Document::serialize` via bincode v1: `u64` LE field count followed
by the encoded fields in order. -/
def Document.serialize (d : Document) : List Nat :=
  leBytes 8 d.fields.length ++ (d.fields.map Field.serialize).flatten

-- ### Errors surfaced by the engine

/-- Error outcomes of the insertion path and the bucket lifecycle
(`std::io::Error` values in the source, distinguished here by site). -/
inductive DbError where
  | bucketNotFound
  | conversionFailed
  | tooFewFields
  | tooManyFields
  | fieldNotFound
  | queueFull
  | descriptorMissing
  | ioFailure
  | codecFailure
  deriving DecidableEq

-- ### Bucket state and insert (src/database/bucket.rs)

/-- `QueuedWriteInformation` (`writer/queued.rs`): one pending write
job: the `(start, end)` seek pair, the byte count and the bytes. -/
structure QueuedWriteInformation where
  seek : Nat × Nat
  len : Nat
  bytes : List Nat
  deriving DecidableEq

/-- Capacity of the bounded MPMC write queue (`ArrayQueue::new(10000)`
in `Bucket::new`). -/
def queueCapacity : Nat := 10000

/-- In-memory bucket state relevant to the verified operations: the
decoded schema (`descriptor`), the atomic tail offset and the content of
the bounded write queue. -/
structure BucketState where
  descriptor : Option BucketDescription
  atomic_offset : Nat
  write_queue : List QueuedWriteInformation
  deriving DecidableEq

/-- `Bucket::insert`. Reads the tail offset (the pooled readers return
the shared atomic offset), builds the record buffer (`u64` LE length of
the serialised document, the serialised document, zero padding up to a
multiple of 8), computes the new offset as
`buffer.len() + offset + size_of::<u64>()`, stores it into the atomic
offset, then pushes the job onto the bounded queue — failing with the
queue-full error exactly when the queue already holds `queueCapacity`
jobs (the atomic store has happened either way). On success returns the
new offset and a 24-byte all-zero placeholder document id. -/
def Bucket.insert (st : BucketState) (document : Document) :
    Except DbError (Nat × List Nat) × BucketState :=
  let offset := st.atomic_offset
  let serialized_data := document.serialize
  let buf := leBytes 8 serialized_data.length ++ serialized_data
  let len := round_to_multiple buf.length 8
  let buf := listResize buf len
  let new_offset := buf.length + offset + 8
  let st := { st with atomic_offset := new_offset }
  let info : QueuedWriteInformation := ⟨(offset, new_offset), buf.length, buf⟩
  if st.write_queue.length < queueCapacity then
    (Except.ok (new_offset, List.replicate 24 0),
      { st with write_queue := st.write_queue ++ [info] })
  else
    (Except.error DbError.queueFull, st)

-- ### Database.insert (src/database.rs)

/-- The per-field validation loop of `Database::insert`: walk the
document fields in order; a field passes when some schema descriptor
matches it (`is_match`); return the first field that no descriptor
matches, `none` when all fields pass. -/
def findUnmatched (field_description : List FieldDescriptor) :
    List Field → Option Field
  | [] => none
  | f :: fs =>
    if field_description.any (fun is_f => is_f.is_match f) then
      findUnmatched field_description fs
    else some f

/-- `Database::insert`. Look up the bucket (else the not-found error),
convert the value to a document (`convert_to`, modelled by an `Option
Document` argument; else the conversion error), validate the field count
(too few / too many) and each field against the schema (first unmatched
field yields the field-not-found error), then delegate to
`Bucket::insert`. The bucket state is returned alongside the result;
error paths leave it untouched. The source `unwrap`s a missing bucket
descriptor (a panic), modelled as `descriptorMissing`. -/
def Database.insert (bucket : Option BucketState) (key : Int)
    (value : Option Document) :
    Except DbError (Nat × List Nat) × Option BucketState :=
  match bucket with
  | none => (Except.error DbError.bucketNotFound, none)
  | some b =>
    match value with
    | none => (Except.error DbError.conversionFailed, some b)
    | some document =>
      match b.descriptor with
      | none => (Except.error DbError.descriptorMissing, some b)
      | some p =>
        let field_description := p.field_description
        if document.fields.length < field_description.length then
          (Except.error DbError.tooFewFields, some b)
        else if document.fields.length > field_description.length then
          (Except.error DbError.tooManyFields, some b)
        else
          match findUnmatched field_description document.fields with
          | some _ => (Except.error DbError.fieldNotFound, some b)
          | none =>
            let r := Bucket.insert b document
            (r.1, some r.2)

-- ### Queued writer drain pass (src/database/bucket/writer/queued.rs)

/-- Comparison used by `data.sort_unstable_by_key(|x| x.0)`: jobs are
keyed by their `(start, end)` seek pair, ordered lexicographically. -/
def jobLe (a b : QueuedWriteInformation) : Bool :=
  decide (a.seek.1 < b.seek.1 ∨ (a.seek.1 = b.seek.1 ∧ a.seek.2 ≤ b.seek.2))

/-- Insertion into a list sorted by `jobLe`. -/
def insertSorted (j : QueuedWriteInformation) :
    List QueuedWriteInformation → List QueuedWriteInformation
  | [] => [j]
  | x :: xs => if jobLe j x then j :: x :: xs else x :: insertSorted j xs

/-- Models `sort_unstable_by_key(|x| x.0)` on the drained job vector
(insertion sort by the seek-pair key). -/
def sortJobs : List QueuedWriteInformation → List QueuedWriteInformation
  | [] => []
  | x :: xs => insertSorted x (sortJobs xs)

/-- The chunk-building `for` loop of `QueuedWriter::start`, returning
the list of `(seek position, bytes)` chunk writes it performs. State:
the running `chunk` and the `last_offset` sentinel (`i64`, `-1` after a
flush). A job whose start equals `last_offset` (or any job when the
sentinel is `-1`) is appended to the chunk (the chunk start is set to
the job start when the chunk is empty) and `last_offset` becomes the
job's end; otherwise the chunk is flushed, the state is reset — and the
job itself is consumed by the iteration without being added anywhere.
The trailing flush after the loop emits the last chunk when it is
non-empty. -/
def chunkLoop : List QueuedWriteInformation → Nat × List Nat → Int →
    List (Nat × List Nat)
  | [], chunk, _ => if 0 < chunk.2.length then [chunk] else []
  | d :: rest, chunk, last_offset =>
    if (d.seek.1 : Int) = last_offset ∨ last_offset = -1 then
      let start := if chunk.2.length = 0 then d.seek.1 else chunk.1
      chunkLoop rest (start, chunk.2 ++ d.bytes) (d.seek.2 : Int)
    else
      chunk :: chunkLoop rest (0, []) (-1)

/-- One drain pass of the queued-writer consumer over the popped jobs:
sort by the seek key, then run the chunk loop with the chunk seeded at
the first sorted job's start. An empty drain performs no writes. -/
def drainPass (data : List QueuedWriteInformation) : List (Nat × List Nat) :=
  match sortJobs data with
  | [] => []
  | first :: rest => chunkLoop (first :: rest) (first.seek.1, []) (first.seek.1 : Int)

-- ### Document counting (src/database/bucket.rs)

/-- The scan loop of `Bucket::count_documents` with explicit fuel
(`none` when the fuel runs out; the source loop is unbounded): seek to
`offset`, read a `u64` LE record size; a failed read breaks the loop
returning the count; on success the next offset is `size + 8` (the
source assigns `offset = size + 8`, it does not add the old offset)
and the count increases. -/
def countLoop (file : List Nat) : Nat → Nat → Nat → Option Nat
  | 0, _, _ => none
  | fuel + 1, offset, count =>
    match readU64 file offset with
    | none => some count
    | some size => countLoop file fuel (size + 8) (count + 1)

/-- `Bucket::count_documents`: run the scan loop from `pageSize` with
count 0. -/
def Bucket.count_documents (file : List Nat) (pageSize fuel : Nat) : Option Nat :=
  countLoop file fuel pageSize 0

-- ### DBDescriptor codec (src/db/descriptor.rs)

/-- Headroom added on top of the descriptor size (`HEADER_ROOM`). -/
def HEADER_ROOM : Nat := 1024

/-- `DBDescriptor`: the database-wide page size and header size (both
`usize` in the source). -/
structure DBDescriptor where
  page_size : Nat
  header_size : Nat
  deriving DecidableEq

/-- Models the bincode v1 encoding of `DBDescriptor`: the two `usize`
fields as `u64` LE, in declaration order (16 bytes). -/
def DBDescriptor.serialize (d : DBDescriptor) : List Nat :=
  leBytes 8 d.page_size ++ leBytes 8 d.header_size

/-- Models the bincode v1 decoding of `DBDescriptor` (fails on fewer
than 16 bytes; trailing bytes are ignored as bincode does). -/
def DBDescriptor.deserialize (data : List Nat) : Option DBDescriptor :=
  if 16 ≤ data.length then
    some ⟨leVal (data.take 8), leVal ((data.drop 8).take 8)⟩
  else none

/-- `DBDescriptor::save_to_path`. The file is created with
`create_new(true)`, so an existing file at the path makes the call fail
(`none`). Otherwise, on the fresh (empty) file: allocate `header_size`
bytes, write the encoded length as `u64` LE at offset 0 (position now
8), seek 8 further, and write the encoded descriptor — at offset 16. -/
def DBDescriptor.save_to_path (d : DBDescriptor) (existing : Option (List Nat)) :
    Option (List Nat) :=
  match existing with
  | some _ => none
  | none =>
    let buf := d.serialize
    let file := allocate [] d.header_size
    let file := writeAt file 0 (leBytes 8 buf.length)
    let file := writeAt file 16 buf
    some file

/-- `DBDescriptor::load_from_path`: read the `u64` LE length at offset
0 (position now 8), seek 8 further, `read_exact` that many bytes at
offset 16 (fails when the file is too short), and decode them. -/
def DBDescriptor.load_from_path (file : List Nat) : Option DBDescriptor :=
  match readU64 file 0 with
  | none => none
  | some length =>
    if 16 + length ≤ file.length then
      DBDescriptor.deserialize ((file.drop 16).take length)
    else none

-- ### Bucket page codec, load and new (src/database/bucket.rs)

/-- Models the bincode v1 encoding of a `FieldDescriptor`: the name
bytes (length-prefixed) then the `u32` LE variant index of the type. -/
def FieldDescriptor.serialize (d : FieldDescriptor) : List Nat :=
  bincodeBytes d.name ++ leBytes 4 d.field_type.tag

/-- Models the bincode v1 encoding of `BucketDescription`: `u64` LE
count of descriptors followed by the encoded descriptors in order. -/
def BucketDescription.serialize (b : BucketDescription) : List Nat :=
  leBytes 8 b.field_description.length
    ++ (b.field_description.map FieldDescriptor.serialize).flatten

/-- `FieldType` from its `u32` variant index. -/
def decodeFieldType : Nat → Option FieldType
  | 0x0 => some .Uuid
  | 0x1 => some .Bytes
  | 0x2 => some .Text
  | 0x3 => some .Int8
  | 0x4 => some .Int16
  | 0x5 => some .Int32
  | 0x6 => some .Int64
  | 0x7 => some .UInt8
  | 0x8 => some .UInt16
  | 0x9 => some .UInt32
  | 0xA => some .UInt64
  | 0xB => some .Float32
  | 0xC => some .Float64
  | _ => none

/-- Read `k` bytes as a little-endian integer, returning the rest. -/
def parseLe (k : Nat) (bs : List Nat) : Option (Nat × List Nat) :=
  if k ≤ bs.length then some (leVal (bs.take k), bs.drop k) else none

/-- Models bincode v1 decoding of one `FieldDescriptor`. -/
def parseFieldDescriptor (bs : List Nat) : Option (FieldDescriptor × List Nat) :=
  match parseLe 8 bs with
  | none => none
  | some (nlen, bs) =>
    if nlen ≤ bs.length then
      let name := bs.take nlen
      let bs := bs.drop nlen
      match parseLe 4 bs with
      | none => none
      | some (tag, bs) =>
        match decodeFieldType tag with
        | none => none
        | some ft => some (⟨name, ft⟩, bs)
    else none

/-- Models bincode v1 decoding of `n` consecutive `FieldDescriptor`s. -/
def parseDescriptorList : Nat → List Nat → Option (List FieldDescriptor × List Nat)
  | 0, bs => some ([], bs)
  | n + 1, bs =>
    match parseFieldDescriptor bs with
    | none => none
    | some (d, bs) =>
      match parseDescriptorList n bs with
      | none => none
      | some (ds, bs) => some (d :: ds, bs)

/-- Models bincode v1 decoding of `BucketDescription` (`u64` LE count,
then that many descriptors; trailing bytes are ignored as bincode
does). -/
def BucketDescription.deserialize (bs : List Nat) : Option BucketDescription :=
  match parseLe 8 bs with
  | none => none
  | some (n, bs) =>
    match parseDescriptorList n bs with
    | none => none
    | some (ds, _) => some ⟨ds⟩

/-- `Bucket::load_page`: read the `u16` LE descriptor length at offset
0, read that many bytes from offset 2, decode the `BucketDescription`.
A short file fails the read; the source `unwrap`s a decode failure (a
panic), modelled as `codecFailure`. -/
def Bucket.load_page (file : List Nat) : Except DbError BucketDescription :=
  if 2 ≤ file.length then
    let len := leVal (file.take 2)
    let buf := (file.drop 2).take len
    match BucketDescription.deserialize buf with
    | some d => Except.ok d
    | none => Except.error DbError.codecFailure
  else Except.error DbError.ioFailure

/-- Free-space floor checked by `Bucket::initialize`
(`MIN_FREE_BYTES`). -/
def MIN_FREE_BYTES : Nat := 1048576

/-- `Bucket::initialize_page`: serialise the descriptor, pad the buffer
to `pageSize` bytes (the source appends uninitialised memory via
`set_len`, modelled as zeros), write the buffer length (= `pageSize`)
as `u16` LE at offset 0, the buffer at offset 2, and the initial tail
cursor (= `pageSize`) as `u64` LE into the cursor slot at
`pageSize - 16` (`Writer::set_offset`). -/
def Bucket.initialize_page (descriptor : BucketDescription) (pageSize : Nat)
    (file : List Nat) : List Nat :=
  let d := descriptor.serialize
  let buf := d ++ List.replicate (pageSize - d.length) 0
  let file := writeAt file 0 (leBytes 2 buf.length)
  let file := writeAt file 2 buf
  writeAt file (pageSize - 16) (leBytes 8 pageSize)

/-- `Bucket::initialize`: fail when the free space is below
`MIN_FREE_BYTES`; the source panics when no descriptor was supplied
(modelled as `descriptorMissing`); otherwise the supplied descriptor
becomes the bucket's and the page is initialised. -/
def Bucket.initialize (descriptor : Option BucketDescription)
    (pageSize freeSpace : Nat) (file : List Nat) :
    Except DbError (BucketDescription × List Nat) :=
  if freeSpace < MIN_FREE_BYTES then Except.error DbError.ioFailure
  else
    match descriptor with
    | none => Except.error DbError.descriptorMissing
    | some d => Except.ok (d, Bucket.initialize_page d pageSize file)

/-- `Bucket::new`: initialise (when `should_init`) or load the page,
then read the initial tail offset through a temporary reader that was
given no atomic offset — so it reads the on-disk cursor slot at
`pageSize - 16` — and seed the atomic offset with it. The write queue
starts empty. Returns the bucket state and the (possibly initialised)
file. -/
def Bucket.new (should_init : Bool) (descriptor : Option BucketDescription)
    (file : List Nat) (pageSize freeSpace : Nat) :
    Except DbError (BucketState × List Nat) :=
  match (if should_init then Bucket.initialize descriptor pageSize freeSpace file
         else (Bucket.load_page file).map (fun d => (d, file))) with
  | Except.error e => Except.error e
  | Except.ok (d, file) =>
    match readU64 file (pageSize - 16) with
    | none => Except.error DbError.ioFailure
    | some offset =>
      Except.ok ({ descriptor := some d, atomic_offset := offset,
                   write_queue := [] }, file)

-- ### Supporting lemmas about the insert path

theorem Bucket.insert_eq (st : BucketState) (document : Document) :
    Bucket.insert st document =
      (if st.write_queue.length < queueCapacity then
        (Except.ok
            (round_to_multiple (8 + document.serialize.length) 8
              + st.atomic_offset + 8, List.replicate 24 0),
          { descriptor := st.descriptor,
            atomic_offset := round_to_multiple (8 + document.serialize.length) 8
              + st.atomic_offset + 8,
            write_queue := st.write_queue ++
              [⟨(st.atomic_offset,
                  round_to_multiple (8 + document.serialize.length) 8
                    + st.atomic_offset + 8),
                round_to_multiple (8 + document.serialize.length) 8,
                listResize (leBytes 8 document.serialize.length ++ document.serialize)
                  (round_to_multiple (8 + document.serialize.length) 8)⟩] })
      else
        (Except.error DbError.queueFull,
          { descriptor := st.descriptor,
            atomic_offset := round_to_multiple (8 + document.serialize.length) 8
              + st.atomic_offset + 8,
            write_queue := st.write_queue })) := by
  simp only [Bucket.insert, listResize_length, List.length_append, leBytes_length]

/-- Claim C1 (counterexample): inserting the empty document (serialised
length `S = 8`) with tail snapshot `O = 4096` stores `4120` into the
atomic offset, but `O + round_up(8 + S, 8) = 4112` — the claim's stated
value is wrong at this input. -/
theorem c1_counterexample :
    (Bucket.insert ⟨some ⟨[]⟩, 4096, []⟩ ⟨[]⟩).2.atomic_offset = 4120 ∧
    (Bucket.insert ⟨some ⟨[]⟩, 4096, []⟩ ⟨[]⟩).2.atomic_offset ≠
      4096 + round_to_multiple (8 + (Document.serialize ⟨[]⟩).length) 8 := by
  constructor <;> decide

/-- Claim C1 (amended): for every successful `Bucket::insert` of a
document with serialised length `S`, starting from tail snapshot `O`,
the value stored into the atomic offset and returned as the new offset
equals `O + 8 + round_up(8 + S, 8)` — the snapshot plus the padded
record-buffer length (the `u64` LE prefix plus the document, padded to
a multiple of 8) plus a further 8 bytes. -/
theorem c1_insert_offset (st : BucketState) (document : Document)
    (h : st.write_queue.length < queueCapacity) :
    (Bucket.insert st document).1 =
      Except.ok (st.atomic_offset + 8 +
        round_to_multiple (8 + document.serialize.length) 8,
        List.replicate 24 0) ∧
    (Bucket.insert st document).2.atomic_offset =
      st.atomic_offset + 8 +
        round_to_multiple (8 + document.serialize.length) 8 := by
  rw [Bucket.insert_eq, if_pos h]
  constructor
  · dsimp only
    congr 2
    omega
  · dsimp only
    omega

/-- Claim C1 (witness): the amended offset equation evaluated at the
empty document and tail snapshot 4096. -/
theorem c1_insert_offset_witness :
    ((⟨some ⟨[]⟩, 4096, []⟩ : BucketState).write_queue.length < queueCapacity) ∧
    (Bucket.insert ⟨some ⟨[]⟩, 4096, []⟩ ⟨[]⟩).2.atomic_offset =
      (⟨some ⟨[]⟩, 4096, []⟩ : BucketState).atomic_offset + 8 +
        round_to_multiple (8 + (Document.serialize ⟨[]⟩).length) 8 :=
  ⟨by decide, (c1_insert_offset ⟨some ⟨[]⟩, 4096, []⟩ ⟨[]⟩ (by decide)).2⟩

/-- Claim C8 (counterexample): the placeholder document id returned by
`Bucket::insert` is `[0; 24]` — 24 bytes, not 16: at a concrete accepted
insert the returned id is `List.replicate 24 0`, whose length is not
16. -/
theorem c8_counterexample :
    (Bucket.insert ⟨some ⟨[]⟩, 4096, []⟩ ⟨[]⟩).1 =
      Except.ok (4120, List.replicate 24 0) ∧
    (List.replicate 24 (0 : Nat)).length ≠ 16 := by
  exact ⟨rfl, by decide⟩

/-- Claim C8 (amended): for every document accepted for insertion,
`Bucket::insert` returns a pair of the new tail offset and a 24-byte
placeholder document id that is all zero. -/
theorem c8_insert_id (st : BucketState) (document : Document)
    (h : st.write_queue.length < queueCapacity) :
    (Bucket.insert st document).1 =
      Except.ok ((Bucket.insert st document).2.atomic_offset,
        List.replicate 24 0) ∧
    (List.replicate 24 (0 : Nat)).length = 24 ∧
    (∀ b ∈ List.replicate 24 (0 : Nat), b = 0) := by
  refine ⟨?_, by decide, by decide⟩
  rw [Bucket.insert_eq, if_pos h]

/-- Claim C8 (witness): the amended statement evaluated at the empty
document and tail snapshot 4096. -/
theorem c8_insert_id_witness :
    ((⟨some ⟨[]⟩, 4096, []⟩ : BucketState).write_queue.length < queueCapacity) ∧
    (Bucket.insert ⟨some ⟨[]⟩, 4096, []⟩ ⟨[]⟩).1 =
      Except.ok ((Bucket.insert ⟨some ⟨[]⟩, 4096, []⟩ ⟨[]⟩).2.atomic_offset,
        List.replicate 24 0) :=
  ⟨by decide, (c8_insert_id ⟨some ⟨[]⟩, 4096, []⟩ ⟨[]⟩ (by decide)).1⟩

/-- Claim C5: `Bucket::insert` pushes the record job onto a queue of
capacity 10,000 and fails with the queue-full error exactly when the
queue is full: with fewer than 10,000 pending jobs the push succeeds
and appends the job, and with 10,000 pending jobs the insert is
rejected with the queue-full error, leaving the queue unchanged. -/
theorem c5_insert_queue (st : BucketState) (document : Document) :
    queueCapacity = 10000 ∧
    (st.write_queue.length < queueCapacity →
      ∃ info, (Bucket.insert st document).1 =
          Except.ok (info.seek.2, List.replicate 24 0) ∧
        (Bucket.insert st document).2.write_queue = st.write_queue ++ [info]) ∧
    (queueCapacity ≤ st.write_queue.length →
      (Bucket.insert st document).1 = Except.error DbError.queueFull ∧
      (Bucket.insert st document).2.write_queue = st.write_queue) := by
  refine ⟨rfl, ?_, ?_⟩
  · intro h
    rw [Bucket.insert_eq, if_pos h]
    exact ⟨_, rfl, rfl⟩
  · intro h
    rw [Bucket.insert_eq,
      if_neg (by omega : ¬ st.write_queue.length < queueCapacity)]
    exact ⟨rfl, rfl⟩

/-- Claim C5 (witness): a push onto an empty queue succeeds, and the
insert hitting a queue that already holds 10,000 jobs is rejected with
the queue-full error. -/
theorem c5_insert_queue_witness :
    (∃ info, (Bucket.insert ⟨some ⟨[]⟩, 4096, []⟩ ⟨[]⟩).1 =
        Except.ok (info.seek.2, List.replicate 24 0) ∧
      (Bucket.insert ⟨some ⟨[]⟩, 4096, []⟩ ⟨[]⟩).2.write_queue =
        (⟨some ⟨[]⟩, 4096, []⟩ : BucketState).write_queue ++ [info]) ∧
    (Bucket.insert ⟨some ⟨[]⟩, 4096, List.replicate 10000 ⟨(0, 0), 0, []⟩⟩ ⟨[]⟩).1 =
      Except.error DbError.queueFull :=
  ⟨(c5_insert_queue ⟨some ⟨[]⟩, 4096, []⟩ ⟨[]⟩).2.1 (by decide),
   ((c5_insert_queue ⟨some ⟨[]⟩, 4096, List.replicate 10000 ⟨(0, 0), 0, []⟩⟩ ⟨[]⟩).2.2
      (by simp only [queueCapacity, List.length_replicate, le_refl])).1⟩

/-- Claim C2: in a drain pass over two jobs whose byte ranges are not
adjacent — `[0, 16)` followed by `[24, 40)` — the consumer flushes the
first chunk and then discards the second job entirely: the pass
performs the single write `(0, bytes₁)` and the second job's bytes are
written nowhere, instead of starting a new chunk at offset 24 as the
claim states. -/
theorem c2_chunk_drop :
    drainPass [⟨(0, 16), 16, List.replicate 16 1⟩,
               ⟨(24, 40), 16, List.replicate 16 2⟩] =
      [(0, List.replicate 16 1)] ∧
    ∀ w ∈ drainPass [⟨(0, 16), 16, List.replicate 16 1⟩,
                     ⟨(24, 40), 16, List.replicate 16 2⟩], w.1 ≠ 24 := by
  constructor <;> decide

/-- Claim C3: on a 48-byte bucket file with page size 32 holding exactly
one length-prefixed record at offset 32 (payload length 8, on-disk tail
cursor 48 in the slot at offset 16), `count_documents` returns 2, not
1: after reading the first record's length `S` the scan jumps to
absolute offset `S + 8 = 16` (it assigns `offset = size + 8` instead of
advancing past the record), reads the tail-cursor slot as a second
"record length", and only then hits a short read. -/
theorem c3_count_documents_bug :
    Bucket.count_documents
      (List.replicate 16 0 ++ leBytes 8 48 ++ List.replicate 8 0
        ++ leBytes 8 8 ++ List.replicate 8 7) 32 100 = some 2 := by
  decide

theorem findUnmatched_eq_none_iff (fds : List FieldDescriptor) (fs : List Field) :
    findUnmatched fds fs = none ↔
      ∀ f ∈ fs, (fds.any fun d => d.is_match f) = true := by
  induction fs with
  | nil => simp [findUnmatched]
  | cons f fs ih =>
    simp only [findUnmatched, List.mem_cons]
    by_cases h : (fds.any fun is_f => is_f.is_match f) = true
    · rw [if_pos h, ih]
      constructor
      · intro hall g hg
        cases hg with
        | inl he => exact he ▸ h
        | inr hm => exact hall g hm
      · intro hall g hg
        exact hall g (Or.inr hg)
    · rw [if_neg h]
      constructor
      · intro hc
        exact absurd hc (by simp)
      · intro hall
        exact absurd (hall f (Or.inl rfl)) h

/-- Claim C4: `Database::insert` validates before delegating to the
bucket: with the bucket's schema present, (1) a document whose field
count differs from the schema length fails with an arity error (the
too-few / too-many pair realising `SchemaArity`), the bucket state
untouched; (2) with equal counts, a document containing a field that no
descriptor matches by `(name, type)` equality fails with the
unknown-field error, the bucket state untouched; (3) with equal counts
and every field matched by some descriptor, validation passes and the
call delegates to `Bucket::insert`. -/
theorem c4_schema_validation (b : BucketState) (schema : BucketDescription)
    (key : Int) (document : Document)
    (hdesc : b.descriptor = some schema) :
    (document.fields.length ≠ schema.field_description.length →
      ∃ e, Database.insert (some b) key (some document) =
          (Except.error e, some b) ∧
        (e = DbError.tooFewFields ∨ e = DbError.tooManyFields)) ∧
    ((∃ f ∈ document.fields,
        ∀ d ∈ schema.field_description, d.is_match f = false) →
      document.fields.length = schema.field_description.length →
      Database.insert (some b) key (some document) =
        (Except.error DbError.fieldNotFound, some b)) ∧
    ((∀ f ∈ document.fields,
        ∃ d ∈ schema.field_description, d.is_match f = true) →
      document.fields.length = schema.field_description.length →
      Database.insert (some b) key (some document) =
        ((Bucket.insert b document).1, some (Bucket.insert b document).2)) := by
  refine ⟨?_, ?_, ?_⟩ <;> simp only [Database.insert, hdesc]
  · intro hne
    by_cases hlt : document.fields.length < schema.field_description.length
    · exact ⟨DbError.tooFewFields, by rw [if_pos hlt], Or.inl rfl⟩
    · have hgt : document.fields.length > schema.field_description.length := by
        omega
      exact ⟨DbError.tooManyFields, by rw [if_neg hlt, if_pos hgt], Or.inr rfl⟩
  · intro hex heq
    rw [if_neg (by omega), if_neg (by omega)]
    have hne : findUnmatched schema.field_description document.fields ≠ none := by
      intro hnoneEq
      have hforall := (findUnmatched_eq_none_iff _ _).1 hnoneEq
      obtain ⟨f, hf, hall⟩ := hex
      obtain ⟨d, hd, hm⟩ := (List.any_eq_true).1 (hforall f hf)
      rw [hall d hd] at hm
      exact Bool.false_ne_true hm
    cases hfind : findUnmatched schema.field_description document.fields with
    | none => exact absurd hfind hne
    | some g => rfl
  · intro hall heq
    rw [if_neg (by omega), if_neg (by omega)]
    have hnone : findUnmatched schema.field_description document.fields = none := by
      rw [findUnmatched_eq_none_iff]
      intro f hf
      rw [List.any_eq_true]
      obtain ⟨d, hd, hm⟩ := hall f hf
      exact ⟨d, hd, hm⟩
    rw [hnone]

/-- Claim C4 (witness): a single-field document matching the one-entry
schema passes validation and is handed to `Bucket::insert`. -/
theorem c4_schema_validation_witness :
    Database.insert (some ⟨some ⟨[⟨[97], FieldType.Text⟩]⟩, 4096, []⟩) 0
        (some ⟨[⟨[97], FieldType.Text, [104, 105]⟩]⟩) =
      ((Bucket.insert ⟨some ⟨[⟨[97], FieldType.Text⟩]⟩, 4096, []⟩
          ⟨[⟨[97], FieldType.Text, [104, 105]⟩]⟩).1,
        some (Bucket.insert ⟨some ⟨[⟨[97], FieldType.Text⟩]⟩, 4096, []⟩
          ⟨[⟨[97], FieldType.Text, [104, 105]⟩]⟩).2) :=
  (c4_schema_validation ⟨some ⟨[⟨[97], FieldType.Text⟩]⟩, 4096, []⟩
      ⟨[⟨[97], FieldType.Text⟩]⟩ 0 ⟨[⟨[97], FieldType.Text, [104, 105]⟩]⟩ rfl).2.2
    (by decide) (by decide)

/-- Claim C9: when `Database::insert` fails with the unknown-bucket,
conversion, arity or unknown-field error, the store state is unchanged:
the returned bucket state (queue and atomic tail offset included) is
exactly the input one, because all these checks run before
`Bucket::insert` is invoked. (The queue-full error is excluded: there
the source has already stored the advanced offset.) -/
theorem c9_error_leaves_state (bucket : Option BucketState) (key : Int)
    (value : Option Document) (e : DbError) (st : Option BucketState)
    (h : Database.insert bucket key value = (Except.error e, st))
    (he : e = DbError.bucketNotFound ∨ e = DbError.conversionFailed ∨
      e = DbError.tooFewFields ∨ e = DbError.tooManyFields ∨
      e = DbError.fieldNotFound) :
    st = bucket := by
  cases bucket with
  | none =>
    simp only [Database.insert, Prod.mk.injEq] at h
    exact h.2.symm
  | some b =>
    cases value with
    | none =>
      simp only [Database.insert, Prod.mk.injEq] at h
      exact h.2.symm
    | some document =>
      simp only [Database.insert] at h
      cases hdesc : b.descriptor with
      | none =>
        simp only [hdesc, Prod.mk.injEq, Except.error.injEq] at h
        rw [← h.1] at he
        simp at he
      | some p =>
        simp only [hdesc] at h
        by_cases h1 : document.fields.length < p.field_description.length
        · rw [if_pos h1] at h
          simp only [Prod.mk.injEq] at h
          exact h.2.symm
        · rw [if_neg h1] at h
          by_cases h2 : document.fields.length > p.field_description.length
          · rw [if_pos h2] at h
            simp only [Prod.mk.injEq] at h
            exact h.2.symm
          · rw [if_neg h2] at h
            cases hfind : findUnmatched p.field_description document.fields with
            | some g =>
              rw [hfind] at h
              simp only [Prod.mk.injEq] at h
              exact h.2.symm
            | none =>
              rw [hfind] at h
              rw [Bucket.insert_eq] at h
              by_cases hq : b.write_queue.length < queueCapacity
              · rw [if_pos hq] at h
                simp only [Prod.mk.injEq] at h
                exact absurd h.1 (by simp)
              · rw [if_neg hq] at h
                simp only [Prod.mk.injEq, Except.error.injEq] at h
                rw [← h.1] at he
                simp at he

/-- Claim C9 (witness): an arity failure (empty document against a
one-entry schema) returns the bucket state unchanged. -/
theorem c9_error_leaves_state_witness :
    Database.insert (some ⟨some ⟨[⟨[97], FieldType.Text⟩]⟩, 4096, []⟩) 0
        (some ⟨[]⟩) =
      (Except.error DbError.tooFewFields,
        some ⟨some ⟨[⟨[97], FieldType.Text⟩]⟩, 4096, []⟩) ∧
    (some ⟨some ⟨[⟨[97], FieldType.Text⟩]⟩, 4096, []⟩ : Option BucketState) =
      some ⟨some ⟨[⟨[97], FieldType.Text⟩]⟩, 4096, []⟩ :=
  ⟨rfl,
   c9_error_leaves_state (some ⟨some ⟨[⟨[97], FieldType.Text⟩]⟩, 4096, []⟩) 0
     (some ⟨[]⟩) DbError.tooFewFields
     (some ⟨some ⟨[⟨[97], FieldType.Text⟩]⟩, 4096, []⟩) rfl
     (Or.inr (Or.inr (Or.inl rfl)))⟩

theorem writeAt_take_small (file : List Nat) (pos : Nat) (bytes : List Nat)
    (k : Nat) (hk : k ≤ pos) (hkf : k ≤ file.length) :
    (writeAt file pos bytes).take k = file.take k := by
  rw [writeAt_take_of_le file pos bytes k hk, List.take_append_eq_append_take,
    List.take_take]
  have h1 : min k pos = k := by omega
  have h2 : k - (file.take pos).length = 0 := by
    simp [List.length_take]
    omega
  rw [h1, h2]
  simp

theorem serialize_length (d : DBDescriptor) : d.serialize.length = 16 := by
  simp [DBDescriptor.serialize]

theorem save_to_path_eq (d : DBDescriptor) :
    DBDescriptor.save_to_path d none =
      some (writeAt (writeAt (List.replicate d.header_size 0) 0 (leBytes 8 16))
        16 d.serialize) := by
  simp only [DBDescriptor.save_to_path, serialize_length, allocate, List.nil_append,
    Nat.sub_zero, List.length_nil]

theorem save_first_write_take_eight (d : DBDescriptor) :
    (writeAt (List.replicate d.header_size 0) 0 (leBytes 8 16)).take 8 =
      leBytes 8 16 := by
  rw [writeAt]
  simp only [List.take_zero, List.length_replicate, Nat.zero_sub, List.replicate_zero,
    List.nil_append]
  rw [List.take_append_of_le_length (by simp)]
  exact List.take_of_length_le (by simp)

set_option maxRecDepth 8000 in
/-- Claim C6 (counterexample): saving the descriptor `{page_size: 4096,
header_size: 1040}` to a fresh path yields a file whose 16 bytes from
offset 8 are not the encoded descriptor (offsets 8..16 are zero
padding); the encoded descriptor actually sits at offset 16. -/
theorem c6_counterexample :
    (DBDescriptor.save_to_path ⟨4096, 1040⟩ none).isSome = true ∧
    List.take 16 (List.drop 8
        (Option.getD (DBDescriptor.save_to_path ⟨4096, 1040⟩ none) [])) ≠
      DBDescriptor.serialize ⟨4096, 1040⟩ ∧
    List.take 16 (List.drop 16
        (Option.getD (DBDescriptor.save_to_path ⟨4096, 1040⟩ none) [])) =
      DBDescriptor.serialize ⟨4096, 1040⟩ := by
  refine ⟨rfl, by decide, by decide⟩

/-- Claim C6 (amended): `save_to_path` creates the descriptor file
exclusively (it fails when a file already exists at the path),
pre-allocates `header_size` bytes, writes the encoded length (16) as
`u64` LE at offset 0, and writes the encoded `DBDescriptor` starting at
offset 16 — not 8: the ignored 8 bytes at offsets 8..16 keep their
zero fill. -/
theorem c6_save_layout (d : DBDescriptor) (f₀ : List Nat)
    (h : 32 ≤ d.header_size) :
    DBDescriptor.save_to_path d (some f₀) = none ∧
    ∃ F, DBDescriptor.save_to_path d none = some F ∧
      F.length = d.header_size ∧
      F.take 8 = leBytes 8 16 ∧
      List.take 16 (List.drop 16 F) = d.serialize := by
  refine ⟨rfl, ⟨writeAt (writeAt (List.replicate d.header_size 0) 0 (leBytes 8 16))
    16 d.serialize, save_to_path_eq d, ?_, ?_, ?_⟩⟩
  · rw [writeAt_length, writeAt_length, serialize_length]
    simp only [List.length_replicate, leBytes_length]
    omega
  · rw [writeAt_take_small _ 16 _ 8 (by omega)
      (by rw [writeAt_length]; simp)]
    exact save_first_write_take_eight d
  · have := writeAt_read (writeAt (List.replicate d.header_size 0) 0 (leBytes 8 16))
      16 d.serialize
    rw [serialize_length] at this
    exact this

/-- Claim C6 (witness): the amended layout at the descriptor
`{page_size: 4096, header_size: 1040}`. -/
theorem c6_save_layout_witness :
    32 ≤ (⟨4096, 1040⟩ : DBDescriptor).header_size ∧
    DBDescriptor.save_to_path ⟨4096, 1040⟩ (some []) = none ∧
    ∃ F, DBDescriptor.save_to_path ⟨4096, 1040⟩ none = some F ∧
      F.length = (⟨4096, 1040⟩ : DBDescriptor).header_size ∧
      F.take 8 = leBytes 8 16 ∧
      List.take 16 (List.drop 16 F) = DBDescriptor.serialize ⟨4096, 1040⟩ :=
  ⟨by decide, (c6_save_layout ⟨4096, 1040⟩ [] (by decide)).1,
    (c6_save_layout ⟨4096, 1040⟩ [] (by decide)).2⟩

theorem deserialize_serialize (d : DBDescriptor)
    (h1 : d.page_size < 2 ^ 64) (h2 : d.header_size < 2 ^ 64) :
    DBDescriptor.deserialize d.serialize = some d := by
  obtain ⟨ps, hs⟩ := d
  rw [DBDescriptor.deserialize, if_pos (by rw [serialize_length])]
  simp only [DBDescriptor.serialize]
  rw [List.take_append_of_le_length (by simp), List.take_of_length_le (by simp),
    List.drop_left' (by simp), List.take_of_length_le (by simp)]
  rw [leVal_leBytes 8 ps (by exact_mod_cast h1), leVal_leBytes 8 hs (by exact_mod_cast h2)]

/-- Claim C7: for every `DBDescriptor` `d` (with `u64`-ranged fields)
saved to a fresh path, `load_from_path` on the resulting file returns a
descriptor equal to `d`: the save writes the 16 encoded bytes at offset
16 and the load reads them back from offset 16, so a second open
observes the same descriptor. -/
theorem c7_descriptor_roundtrip (d : DBDescriptor) (F : List Nat)
    (h1 : d.page_size < 2 ^ 64) (h2 : d.header_size < 2 ^ 64)
    (hsave : DBDescriptor.save_to_path d none = some F) :
    DBDescriptor.load_from_path F = some d := by
  rw [save_to_path_eq] at hsave
  rw [Option.some.injEq] at hsave
  subst hsave
  have hF1len : (writeAt (List.replicate d.header_size 0) 0 (leBytes 8 16)).length
      = max d.header_size 8 := by
    rw [writeAt_length]
    simp
  have hGlen : (writeAt (writeAt (List.replicate d.header_size 0) 0 (leBytes 8 16))
      16 d.serialize).length = max (max d.header_size 8) 32 := by
    rw [writeAt_length, hF1len, serialize_length]
  have htake8 : (writeAt (writeAt (List.replicate d.header_size 0) 0 (leBytes 8 16))
      16 d.serialize).take 8 = leBytes 8 16 := by
    rw [writeAt_take_small _ 16 _ 8 (by omega) (by rw [hF1len]; omega)]
    exact save_first_write_take_eight d
  have hread : readU64 (writeAt (writeAt (List.replicate d.header_size 0) 0
      (leBytes 8 16)) 16 d.serialize) 0 = some 16 := by
    rw [readU64, if_pos (by rw [hGlen]; omega), List.drop_zero, htake8,
      leVal_leBytes 8 16 (by norm_num)]
  have hslice : List.take 16 (List.drop 16
      (writeAt (writeAt (List.replicate d.header_size 0) 0 (leBytes 8 16))
        16 d.serialize)) = d.serialize := by
    have := writeAt_read (writeAt (List.replicate d.header_size 0) 0 (leBytes 8 16))
      16 d.serialize
    rw [serialize_length] at this
    exact this
  rw [DBDescriptor.load_from_path]
  simp only [hread]
  rw [hslice]
  rw [if_pos (show 16 + 16 ≤ (writeAt (writeAt (List.replicate d.header_size 0) 0
    (leBytes 8 16)) 16 d.serialize).length from by rw [hGlen]; omega)]
  exact deserialize_serialize d h1 h2

set_option maxRecDepth 8000 in
/-- Claim C7 (witness): saving and re-loading the dynamic descriptor
`{page_size: 4096, header_size: 1040}` returns it unchanged. -/
theorem c7_descriptor_roundtrip_witness :
    DBDescriptor.load_from_path
        (Option.getD (DBDescriptor.save_to_path ⟨4096, 1040⟩ none) []) =
      some ⟨4096, 1040⟩ :=
  c7_descriptor_roundtrip ⟨4096, 1040⟩ _ (by norm_num) (by norm_num) (by decide)

/-- Claim C10: when `Bucket::new` opens an existing bucket
(`should_init = false`), the caller's descriptor argument is ignored:
the result is the same for any two supplied descriptor arguments (even
`none`), and on success the in-memory descriptor is exactly the
`BucketDescription` decoded from the length-prefixed header of the
on-disk page by `load_page`, with the file left untouched. -/
theorem c10_load_ignores_descriptor (file : List Nat) (pageSize freeSpace : Nat)
    (d1 d2 : Option BucketDescription) :
    Bucket.new false d1 file pageSize freeSpace =
      Bucket.new false d2 file pageSize freeSpace ∧
    (∀ st f', Bucket.new false d1 file pageSize freeSpace = Except.ok (st, f') →
      ∃ d, Bucket.load_page file = Except.ok d ∧ st.descriptor = some d ∧
        f' = file ∧ st.write_queue = []) := by
  constructor
  · rfl
  · intro st f' h
    rw [Bucket.new] at h
    rw [if_neg (by decide : ¬ (false = true))] at h
    cases hload : Bucket.load_page file with
    | error e =>
      simp only [hload, Except.map] at h
      exact Except.noConfusion h
    | ok d =>
      simp only [hload, Except.map] at h
      cases hoff : readU64 file (pageSize - 16) with
      | none =>
        simp only [hoff] at h
        exact Except.noConfusion h
      | some offset =>
        simp only [hoff, Except.ok.injEq, Prod.mk.injEq] at h
        refine ⟨d, rfl, ?_, h.2.symm, ?_⟩
        · rw [← h.1]
        · rw [← h.1]

/-- Claim C10 (witness): a 32-byte page whose header encodes the empty
schema and whose cursor slot holds 32 loads identically with two
different descriptor arguments (a one-field schema and `none`), and
the loaded descriptor is the decoded empty schema. -/
theorem c10_load_ignores_descriptor_witness :
    Bucket.new false (some ⟨[⟨[120], FieldType.Text⟩]⟩)
        (leBytes 2 8 ++ leBytes 8 0 ++ List.replicate 6 0 ++ leBytes 8 32
          ++ List.replicate 8 0) 32 0 =
      Bucket.new false none
        (leBytes 2 8 ++ leBytes 8 0 ++ List.replicate 6 0 ++ leBytes 8 32
          ++ List.replicate 8 0) 32 0 ∧
    ∃ d, Bucket.load_page
        (leBytes 2 8 ++ leBytes 8 0 ++ List.replicate 6 0 ++ leBytes 8 32
          ++ List.replicate 8 0) = Except.ok d ∧
      (⟨some ⟨[]⟩, 32, []⟩ : BucketState).descriptor = some d ∧
      (leBytes 2 8 ++ leBytes 8 0 ++ List.replicate 6 0 ++ leBytes 8 32
          ++ List.replicate 8 0) =
        (leBytes 2 8 ++ leBytes 8 0 ++ List.replicate 6 0 ++ leBytes 8 32
          ++ List.replicate 8 0) ∧
      (⟨some ⟨[]⟩, 32, []⟩ : BucketState).write_queue = [] :=
  ⟨(c10_load_ignores_descriptor
      (leBytes 2 8 ++ leBytes 8 0 ++ List.replicate 6 0 ++ leBytes 8 32
        ++ List.replicate 8 0) 32 0 (some ⟨[⟨[120], FieldType.Text⟩]⟩) none).1,
   (c10_load_ignores_descriptor
      (leBytes 2 8 ++ leBytes 8 0 ++ List.replicate 6 0 ++ leBytes 8 32
        ++ List.replicate 8 0) 32 0 (some ⟨[⟨[120], FieldType.Text⟩]⟩) none).2
     ⟨some ⟨[]⟩, 32, []⟩
     (leBytes 2 8 ++ leBytes 8 0 ++ List.replicate 6 0 ++ leBytes 8 32
       ++ List.replicate 8 0) (by rfl)⟩

end NonaneDB
